import Mathlib

/-!
Shallow embedding of `extractor.py` (traefik-certificate-extractor).

The program reads Traefik's `acme.json`, locates the certificate list under
`letsencrypt.Certificates` (falling back to `acme.Certificates`), and for each
record resolves a domain name, base64-decodes the certificate and key, and
writes `certificate.pem`, `private_key.pem` and `combined.pem` into a
per-domain folder, optionally archiving old files and optionally skipping
records whose on-disk content already matches.

Parsed JSON values are modelled by `Json`; JSON objects are association lists
with unique keys (as produced by `json.load`).  Python's data-dependent
exceptions (`KeyError`, `TypeError`, ...) are modelled by `PyErr` and
`Except`.  The file system is modelled by `FS`: an association list from path
to file state (content and permission mode), a list of existing directories,
a list of paths whose reads raise (modelling environmental read errors in
`compare_certificates`), and the default creation mode for new files (the
process umask applied to `open`'s 0o666).  Environmental failures of writes,
`chmod` and `shutil.move` — all of which the source catches — are not
modelled; the modelled failures are exactly the data-dependent ones.
`print` output is modelled by the structured diagnostics `Diag`, one
constructor per `print` call of the source, carrying the interpolated values
that the claims refer to.
-/

inductive Json where
  | null : Json
  | bool : Bool → Json
  | num : Int → Json
  | str : String → Json
  | arr : List Json → Json
  | obj : List (String × Json) → Json

inductive PyErr where
  | keyError : PyErr
  | typeError : PyErr
  | attributeError : PyErr
  | indexError : PyErr
  | binasciiError : PyErr
  | unicodeDecodeError : PyErr
deriving DecidableEq

/-- First-match lookup in a JSON object (keys are unique after `json.load`). -/
def pyLookup : List (String × Json) → String → Option Json
  | [], _ => none
  | (k, v) :: rest, key => if k = key then some v else pyLookup rest key

/-- Python truthiness of a parsed JSON value. -/
def pyTruthy : Json → Bool
  | .null => false
  | .bool b => b
  | .num n => n != 0
  | .str s => s != ""
  | .arr xs => !xs.isEmpty
  | .obj kvs => !kvs.isEmpty

/-- Contiguous-substring test on character lists. -/
def listIsInfixOf (needle : List Char) : List Char → Bool
  | [] => needle.isEmpty
  | c :: rest => needle.isPrefixOf (c :: rest) || listIsInfixOf needle rest

/-- Python `key in v` for a string key: key membership on dicts, substring
test on strings, element equality on lists, `TypeError` otherwise. -/
def pyContains (key : String) : Json → Except PyErr Bool
  | .obj kvs => .ok (pyLookup kvs key).isSome
  | .str s => .ok (listIsInfixOf key.data s.data)
  | .arr xs => .ok (xs.any fun x => match x with | .str s => s = key | _ => false)
  | _ => .error .typeError

/-- Python `v[key]` for a string key: dict item access (`KeyError` when the
key is missing), `TypeError` on every other type. -/
def pyIndexStr (v : Json) (key : String) : Except PyErr Json :=
  match v with
  | .obj kvs =>
    match pyLookup kvs key with
    | some x => .ok x
    | none => .error .keyError
  | _ => .error .typeError

/-- Python `v[i]` for a natural index: list/string indexing with
`IndexError` out of range, `TypeError` on other types. -/
def pyIndexNat (v : Json) (i : Nat) : Except PyErr Json :=
  match v with
  | .arr xs => if i < xs.length then .ok (xs.getD i .null) else .error .indexError
  | .str s => if i < s.data.length then .ok (.str (String.mk [s.data.getD i ' '])) else .error .indexError
  | _ => .error .typeError

/-- Python `v.get(key, default)`: total on dicts, `AttributeError` otherwise. -/
def pyGetDefault (v : Json) (key : String) (dflt : Json) : Except PyErr Json :=
  match v with
  | .obj kvs =>
    match pyLookup kvs key with
    | some x => .ok x
    | none => .ok dflt
  | _ => .error .attributeError

/-- Lines 60-67 of `extractor.py`: resolve the record's domain.

    domain = "unknown"
    if 'domain' in cert_data:
        if 'main' in cert_data['domain']:
            domain = cert_data['domain']['main']
        else:
            domain = list(cert_data['domain'].values())[0] if cert_data['domain'] else "unknown"
    elif 'domains' in cert_data:
        domain = cert_data['domains'][0]['main'] if cert_data['domains'] else "unknown"
-/
def resolveDomain (cert_data : Json) : Except PyErr Json :=
  match pyContains "domain" cert_data with
  | .error e => .error e
  | .ok true =>
    match pyIndexStr cert_data "domain" with
    | .error e => .error e
    | .ok d =>
      match pyContains "main" d with
      | .error e => .error e
      | .ok true => pyIndexStr d "main"
      | .ok false =>
        if pyTruthy d then
          match d with
          | .obj kvs => pyIndexNat (.arr (kvs.map (·.2))) 0
          | _ => .error .attributeError
        else .ok (.str "unknown")
  | .ok false =>
    match pyContains "domains" cert_data with
    | .error e => .error e
    | .ok true =>
      match pyIndexStr cert_data "domains" with
      | .error e => .error e
      | .ok ds =>
        if pyTruthy ds then
          match pyIndexNat ds 0 with
          | .error e => .error e
          | .ok first => pyIndexStr first "main"
        else .ok (.str "unknown")
    | .ok false => .ok (.str "unknown")

/-- Value of a standard base64 alphabet character. -/
def b64CharVal (c : Char) : Option Nat :=
  if 'A' ≤ c ∧ c ≤ 'Z' then some (c.toNat - 65)
  else if 'a' ≤ c ∧ c ≤ 'z' then some (c.toNat - 97 + 26)
  else if '0' ≤ c ∧ c ≤ '9' then some (c.toNat - 48 + 52)
  else if c = '+' then some 62
  else if c = '/' then some 63
  else none

/-- Decode filtered base64 characters, four at a time, into bytes.  Mirrors
CPython's `binascii.a2b_base64`: a group ending in padding produces its one or
two bytes and decoding stops; a total length that is not a multiple of four
raises `binascii.Error` (incorrect padding), as does stray padding. -/
def b64Groups : List Char → Except PyErr (List Nat)
  | [] => .ok []
  | c1 :: c2 :: c3 :: c4 :: rest =>
    match b64CharVal c1, b64CharVal c2 with
    | some v1, some v2 =>
      if c3 = '=' then .ok [v1 * 4 + v2 / 16]
      else
        match b64CharVal c3 with
        | some v3 =>
          if c4 = '=' then .ok [v1 * 4 + v2 / 16, (v2 % 16) * 16 + v3 / 4]
          else
            match b64CharVal c4 with
            | some v4 =>
              match b64Groups rest with
              | .ok bs => .ok ([v1 * 4 + v2 / 16, (v2 % 16) * 16 + v3 / 4, (v3 % 4) * 64 + v4] ++ bs)
              | .error e => .error e
            | none => .error .binasciiError
        | none => .error .binasciiError
    | _, _ => .error .binasciiError
  | _ => .error .binasciiError

/-- Python `base64.b64decode` on a string (default `validate=False`):
characters outside the alphabet and `'='` are discarded, then the groups are
decoded. -/
def b64decodeChars (s : List Char) : Except PyErr (List Nat) :=
  b64Groups (s.filter fun c => (b64CharVal c).isSome || c == '=')

/-- `base64.b64decode(v)` on a JSON value: only strings are decodable here;
any other type raises `TypeError`. -/
def pyB64decode (v : Json) : Except PyErr (List Nat) :=
  match v with
  | .str s => b64decodeChars s.data
  | _ => .error .typeError

/-- Continuation byte test for UTF-8. -/
def isUtf8Cont (b : Nat) : Bool := 0x80 ≤ b && b < 0xC0

/-- Fueled strict UTF-8 decoder (the fuel is the byte count; each step
consumes at least one byte).  Rejects stray continuation bytes, truncated
sequences, overlong encodings, surrogates and code points above `0x10FFFF`,
exactly the inputs on which `bytes.decode('utf-8')` raises. -/
def utf8DecodeF : Nat → List Nat → Option (List Char)
  | _, [] => some []
  | 0, _ :: _ => none
  | fuel + 1, b :: rest =>
    if b < 0x80 then (utf8DecodeF fuel rest).map (Char.ofNat b :: ·)
    else if b < 0xC2 then none
    else if b < 0xE0 then
      match rest with
      | b1 :: r =>
        if isUtf8Cont b1 then
          (utf8DecodeF fuel r).map (Char.ofNat ((b - 0xC0) * 64 + (b1 - 0x80)) :: ·)
        else none
      | [] => none
    else if b < 0xF0 then
      match rest with
      | b1 :: b2 :: r =>
        if isUtf8Cont b1 && isUtf8Cont b2 then
          let cp := (b - 0xE0) * 4096 + (b1 - 0x80) * 64 + (b2 - 0x80)
          if cp < 0x800 ∨ (0xD800 ≤ cp ∧ cp < 0xE000) then none
          else (utf8DecodeF fuel r).map (Char.ofNat cp :: ·)
        else none
      | _ => none
    else if b < 0xF5 then
      match rest with
      | b1 :: b2 :: b3 :: r =>
        if isUtf8Cont b1 && isUtf8Cont b2 && isUtf8Cont b3 then
          let cp := (b - 0xF0) * 262144 + (b1 - 0x80) * 4096 + (b2 - 0x80) * 64 + (b3 - 0x80)
          if cp < 0x10000 ∨ 0x10FFFF < cp then none
          else (utf8DecodeF fuel r).map (Char.ofNat cp :: ·)
        else none
      | _ => none
    else none

/-- `bytes.decode('utf-8')`: `UnicodeDecodeError` on ill-formed input. -/
def utf8Decode (bs : List Nat) : Except PyErr String :=
  match utf8DecodeF bs.length bs with
  | some cs => .ok (String.mk cs)
  | none => .error .unicodeDecodeError

/-- Fueled left-to-right non-overlapping replacement on character lists,
the semantics of Python `str.replace`; fuel equal to the subject length
suffices for a non-empty pattern. -/
def strReplaceF : Nat → List Char → List Char → List Char → List Char
  | 0, s, _, _ => s
  | fuel + 1, s, old, new =>
    match s with
    | [] => []
    | c :: rest =>
      if old.isPrefixOf (c :: rest) then
        new ++ strReplaceF fuel ((c :: rest).drop old.length) old new
      else c :: strReplaceF fuel rest old new

/-- Python `s.replace(old, new)` on strings. -/
def pyStrReplaceAll (s old new : String) : String :=
  String.mk (strReplaceF s.data.length s.data old.data new.data)

/-- Line 79 of `extractor.py`: `sanitized_domain = domain.replace('*', 'wildcard')`. -/
def sanitizeDomain (domain : String) : String :=
  pyStrReplaceAll domain "*" "wildcard"

/-- `domain.replace('*', 'wildcard')` on a JSON value: `AttributeError`
unless the resolved domain is a string.  Returns the original string paired
with its sanitized form. -/
def pyReplaceStar (domain : Json) : Except PyErr (String × String) :=
  match domain with
  | .str s => .ok (s, sanitizeDomain s)
  | _ => .error .attributeError

/-- State of one regular file: its text content and its permission mode. -/
structure FileState where
  content : String
  mode : Nat
deriving DecidableEq

/-- The file-system fragment the tool touches.  `files` maps a path to its
state; `dirs` lists existing directories; `unreadable` lists paths whose
reads raise `OSError` (environmental read failures, relevant only to
`compare_certificates`); `defaultMode` is the mode `open(..., 'w')` gives a
newly created file (0o666 masked by the process umask). -/
structure FS where
  files : List (String × FileState)
  dirs : List String
  unreadable : List String
  defaultMode : Nat
deriving DecidableEq

def lookupEntries : List (String × FileState) → String → Option FileState
  | [], _ => none
  | (q, st) :: rest, p => if q = p then some st else lookupEntries rest p

def removeEntry : List (String × FileState) → String → List (String × FileState)
  | [], _ => []
  | (q, st) :: rest, p => if q = p then removeEntry rest p else (q, st) :: removeEntry rest p

def setEntry (l : List (String × FileState)) (p : String) (st : FileState) :
    List (String × FileState) :=
  (p, st) :: removeEntry l p

def lookupFile (fs : FS) (p : String) : Option FileState := lookupEntries fs.files p

def existsFile (fs : FS) (p : String) : Bool := (lookupFile fs p).isSome

def getContent (fs : FS) (p : String) : Option String := (lookupFile fs p).map (·.content)

def getMode (fs : FS) (p : String) : Option Nat := (lookupFile fs p).map (·.mode)

/-- `open(p, 'w'); f.write(content)`: truncating write.  An existing file
keeps its mode; a new file is created with the default mode. -/
def writeFile (fs : FS) (p : String) (content : String) : FS :=
  match lookupFile fs p with
  | some st => { fs with files := setEntry fs.files p ⟨content, st.mode⟩ }
  | none => { fs with files := setEntry fs.files p ⟨content, fs.defaultMode⟩ }

/-- `os.chmod(p, m)` (the source only reaches it on files it just wrote). -/
def chmodFile (fs : FS) (p : String) (m : Nat) : FS :=
  match lookupFile fs p with
  | some st => { fs with files := setEntry fs.files p ⟨st.content, m⟩ }
  | none => fs

/-- `shutil.move(src, dst)`: rename, preserving content and mode. -/
def moveFile (fs : FS) (src dst : String) : FS :=
  match lookupFile fs src with
  | some st => { fs with files := setEntry (removeEntry fs.files src) dst st }
  | none => fs

/-- `os.makedirs(d, exist_ok=True)`. -/
def makedirs (fs : FS) (d : String) : FS :=
  if d ∈ fs.dirs then fs else { fs with dirs := d :: fs.dirs }

def startsWithSlash (s : String) : Bool :=
  match s.data.head? with
  | some c => c == '/'
  | none => false

def endsWithSlash (s : String) : Bool :=
  match s.data.getLast? with
  | some c => c == '/'
  | none => false

/-- `os.path.join(a, b)` for POSIX paths and a single extra component. -/
def pyJoin (a b : String) : String :=
  if startsWithSlash b then b
  else if a = "" ∨ endsWithSlash a = true then a ++ b
  else a ++ "/" ++ b

/-- One structured diagnostic per `print` call in the source, carrying the
interpolated values the claims refer to. -/
inductive Diag where
  | compareError : Diag
  | skipping (domain : String) : Diag
  | archived (fileName : String) (dest : String) : Diag
  | errorProcessing (domain : Json) (e : PyErr) : Diag
  | noCerts : Diag
  | summary (count : Nat) (dir : String) : Diag
  | fileNotFound : Diag
  | notValidJson : Diag

/-- Lines 10-27 of `extractor.py`: `compare_certificates`.  Returns the
boolean result together with the diagnostics it printed.  A read error while
comparing (either path listed as unreadable) is caught, reported, and
yields `False`. -/
def compare_certificates (fs : FS) (cert_file key_file : String)
    (certificate key : String) : Bool × List Diag :=
  if existsFile fs cert_file && existsFile fs key_file then
    if cert_file ∈ fs.unreadable ∨ key_file ∈ fs.unreadable then
      (false, [Diag.compareError])
    else
      match getContent fs cert_file, getContent fs key_file with
      | some existing_cert, some existing_key =>
        if existing_cert = certificate ∧ existing_key = key then (true, [])
        else (false, [])
      | _, _ => (false, [])
  else (false, [])

/-- Options of `extract_certificates` (the output directory and the two
behaviour flags). -/
structure Config where
  output_dir : String
  archive_old : Bool
  skip_existing : Bool

/-- Lines 99-108 of `extractor.py`: archive one of the three output files if
it currently exists, into `domain_folder/archive` with a timestamp suffix
captured at the moment of the move (`ts`). -/
def archiveOne (ts : String) (fs : FS) (domain_folder file_name : String) :
    FS × List Diag :=
  let old_file := pyJoin domain_folder file_name
  if existsFile fs old_file then
    let archived_file := pyJoin (pyJoin domain_folder "archive") (file_name ++ "_" ++ ts)
    (moveFile fs old_file archived_file, [Diag.archived file_name archived_file])
  else (fs, [])

/-- Lines 96-108 of `extractor.py`: the `archive_old` block.  `ts k` is the
timestamp captured for the k-th archived file (per-file capture, second
resolution). -/
def archivePhase (ts : Nat → String) (fs : FS) (domain_folder : String) :
    FS × List Diag :=
  let fs0 := makedirs fs (pyJoin domain_folder "archive")
  let r1 := archiveOne (ts 0) fs0 domain_folder "certificate.pem"
  let r2 := archiveOne (ts 1) r1.1 domain_folder "private_key.pem"
  let r3 := archiveOne (ts 2) r2.1 domain_folder "combined.pem"
  (r3.1, r1.2 ++ r2.2 ++ r3.2)

/-- Lines 110-141 of `extractor.py`: write the three output files and set
owner-only permissions on the private key and the combined file. -/
def writeOutputs (fs : FS) (cert_file key_file combined_file certificate key : String) : FS :=
  chmodFile
    (chmodFile
      (writeFile (writeFile (writeFile fs cert_file certificate) key_file key)
        combined_file (certificate ++ key))
      key_file 0o600)
    combined_file 0o600

/-- Lines 78-143 of `extractor.py`: everything after the two decodes
succeed, for one record.  Returns the new file system, the contribution to
`extracted_count` (1 on full success, 0 on a skip), and the diagnostics
printed. -/
def fsPhase (cfg : Config) (ts : Nat → String) (fs : FS)
    (origDomain sanitized certificate key : String) : FS × Nat × List Diag :=
  let domain_folder := pyJoin cfg.output_dir sanitized
  let fs1 := makedirs fs domain_folder
  let cert_file := pyJoin domain_folder "certificate.pem"
  let key_file := pyJoin domain_folder "private_key.pem"
  let combined_file := pyJoin domain_folder "combined.pem"
  let cmp := if cfg.skip_existing then
      compare_certificates fs1 cert_file key_file certificate key
    else (false, [])
  if cmp.1 then
    (fs1, 0, cmp.2 ++ [Diag.skipping origDomain])
  else
    let ar := if cfg.archive_old then archivePhase ts fs1 domain_folder else (fs1, [])
    (writeOutputs ar.1 cert_file key_file combined_file certificate key, 1, cmp.2 ++ ar.2)

/-- Lines 59-70 of `extractor.py`: the part of the per-record body that runs
before the `try` at line 73 — domain resolution and the two `.get` calls.
An exception here is NOT caught by the per-record handler. -/
def preTry (cert_data : Json) : Except PyErr (Json × Json × Json) :=
  match resolveDomain cert_data with
  | .error e => .error e
  | .ok domain =>
    match pyGetDefault cert_data "certificate" (.str "") with
    | .error e => .error e
    | .ok certificate_b64 =>
      match pyGetDefault cert_data "key" (.str "") with
      | .error e => .error e
      | .ok key_b64 => .ok (domain, certificate_b64, key_b64)

/-- Lines 73-143 of `extractor.py`: the body of the per-record `try` block.
The modelled failure points are the two base64 decodes, the two UTF-8
interpretations and `domain.replace` (all the data-dependent ones); the
file-system steps of `fsPhase` are total in the model. -/
def tryBody (cfg : Config) (ts : Nat → String) (fs : FS)
    (domain certificate_b64 key_b64 : Json) : Except PyErr (FS × Nat × List Diag) :=
  match pyB64decode certificate_b64 with
  | .error e => .error e
  | .ok certBytes =>
    match utf8Decode certBytes with
    | .error e => .error e
    | .ok certificate =>
      match pyB64decode key_b64 with
      | .error e => .error e
      | .ok keyBytes =>
        match utf8Decode keyBytes with
        | .error e => .error e
        | .ok key =>
          match pyReplaceStar domain with
          | .error e => .error e
          | .ok (origDomain, sanitized) =>
            .ok (fsPhase cfg ts fs origDomain sanitized certificate key)

/-- Lines 58-146 of `extractor.py`: process one record of the certificate
list.  `.error e` means an exception escaped the per-record loop uncaught;
`.ok (fs, n, ds)` means iteration continues with file system `fs`, count
contribution `n` and printed diagnostics `ds`. -/
def processRecord (cfg : Config) (ts : Nat → String) (fs : FS) (cert_data : Json) :
    Except PyErr (FS × Nat × List Diag) :=
  match preTry cert_data with
  | .error e => .error e
  | .ok (domain, certificate_b64, key_b64) =>
    if pyTruthy certificate_b64 && pyTruthy key_b64 then
      match tryBody cfg ts fs domain certificate_b64 key_b64 with
      | .ok r => .ok r
      | .error e => .ok (fs, 0, [Diag.errorProcessing domain e])
    else .ok (fs, 0, [])

/-- Outcome of reading and parsing the input file (lines 36-44):
the file may be missing, fail to parse as JSON, or parse to a value. -/
inductive InputFile where
  | missing : InputFile
  | invalid : InputFile
  | parsed (data : Json) : InputFile

/-- Result of one run of `extract_certificates`: `exit1` models
`sys.exit(1)`, `crashed` models an uncaught exception escaping the function
(non-zero exit via traceback), `done` a normal return.  Each carries the
file system at that point and the diagnostics printed so far. -/
inductive RunResult where
  | exit1 (fs : FS) (diags : List Diag) : RunResult
  | crashed (fs : FS) (diags : List Diag) (e : PyErr) : RunResult
  | done (fs : FS) (diags : List Diag) : RunResult

/-- The file system carried by a run result. -/
def resultFS : RunResult → FS
  | .exit1 fs _ => fs
  | .crashed fs _ _ => fs
  | .done fs _ => fs

/-- Lines 50-52 of `extractor.py`: locate the certificate list.

    certificates_data = data.get('letsencrypt', {}).get('Certificates', [])
    if not certificates_data:
        certificates_data = data.get('acme', {}).get('Certificates', [])
-/
def certListOf (data : Json) : Except PyErr Json :=
  match pyGetDefault data "letsencrypt" (.obj []) with
  | .error e => .error e
  | .ok le =>
    match pyGetDefault le "Certificates" (.arr []) with
    | .error e => .error e
    | .ok cd =>
      if pyTruthy cd then .ok cd
      else
        match pyGetDefault data "acme" (.obj []) with
        | .error e => .error e
        | .ok ac => pyGetDefault ac "Certificates" (.arr [])

/-- Python `for x in v`: lists yield their elements, strings their
characters, dicts their keys; other values raise `TypeError`. -/
def pyIter (v : Json) : Except PyErr (List Json) :=
  match v with
  | .arr xs => .ok xs
  | .str s => .ok (s.data.map fun c => .str (String.mk [c]))
  | .obj kvs => .ok (kvs.map fun kv => .str kv.1)
  | _ => .error .typeError

/-- The `for cert_data in certificates_data` loop (lines 58-146) followed by
the summary print (line 149).  `ts i` is the timestamp oracle for the i-th
record. -/
def runLoop (cfg : Config) (ts : Nat → Nat → String) :
    List Json → Nat → FS → Nat → List Diag → RunResult
  | [], _, fs, count, diags => .done fs (diags ++ [Diag.summary count cfg.output_dir])
  | item :: rest, i, fs, count, diags =>
    match processRecord cfg (ts i) fs item with
    | .error e => .crashed fs diags e
    | .ok (fs', n, ds) => runLoop cfg ts rest (i + 1) fs' (count + n) (diags ++ ds)

/-- Lines 29-149 of `extractor.py`: `extract_certificates`.  A missing or
unparsable input file exits with status 1 before any output is created; a
parsed store first gets the output directory created, then the certificate
list is resolved and the records are processed. -/
def extract_certificates (cfg : Config) (ts : Nat → Nat → String) (fs : FS)
    (input : InputFile) : RunResult :=
  match input with
  | .missing => .exit1 fs [Diag.fileNotFound]
  | .invalid => .exit1 fs [Diag.notValidJson]
  | .parsed data =>
    let fs1 := makedirs fs cfg.output_dir
    match certListOf data with
    | .error e => .crashed fs1 [] e
    | .ok certs =>
      if pyTruthy certs then
        match pyIter certs with
        | .error e => .crashed fs1 [] e
        | .ok items => runLoop cfg ts items 0 fs1 0 []
      else .done fs1 [Diag.noCerts]

/-- The amended domain-resolution precedence of claim C3, written from the
amended claim's words for comparison with `resolveDomain` (which is
translated from the source): (1) the `main` sub-field of the `domain` field
when present; (2) the value of the first entry of a non-empty `domain` map
without `main`, while an empty `domain` map resolves to `unknown` even when a
`domains` list is also present; (3) when there is no `domain` field, the
`main` sub-field of the FIRST element of a non-empty `domains` list, an
uncaught `KeyError` when that first element lacks `main`; (4) otherwise the
literal `unknown`.  Field shapes outside the claim's vocabulary (a `domain`
that is not a map, a `domains` that is not a list of maps) are not
constrained by the claim and are mapped to `TypeError` here. -/
def domainSpecC3 (kvs : List (String × Json)) : Except PyErr Json :=
  match pyLookup kvs "domain" with
  | some (.obj dkvs) =>
    match pyLookup dkvs "main" with
    | some v => .ok v
    | none =>
      match dkvs with
      | (_, v0) :: _ => .ok v0
      | [] => .ok (.str "unknown")
  | some _ => .error .typeError
  | none =>
    match pyLookup kvs "domains" with
    | some (.arr (first :: _)) =>
      match first with
      | .obj ekvs =>
        match pyLookup ekvs "main" with
        | some v => .ok v
        | none => .error .keyError
      | _ => .error .typeError
    | some (.arr []) => .ok (.str "unknown")
    | some _ => .error .typeError
    | none => .ok (.str "unknown")

/-- Character-level statement of the sanitization rule of claim C7, written
from the claim's words for comparison with `sanitizeDomain`: every `*` is
replaced by the literal string `wildcard`, every other character is kept. -/
def sanitizeSpecList : List Char → List Char
  | [] => []
  | c :: rest => (if c = '*' then ("wildcard").data else [c]) ++ sanitizeSpecList rest

theorem lookupEntries_removeEntry (l : List (String × FileState)) (p q : String) :
    lookupEntries (removeEntry l p) q = if p = q then none else lookupEntries l q := by
  induction l with
  | nil => simp [removeEntry, lookupEntries]
  | cons hd tl ih =>
    obtain ⟨k, st⟩ := hd
    simp only [removeEntry, lookupEntries]
    split_ifs with h1 h2 h3 <;> simp_all [lookupEntries]

@[simp] theorem lookupEntries_setEntry (l : List (String × FileState)) (p : String)
    (st : FileState) (q : String) :
    lookupEntries (setEntry l p st) q = if p = q then some st else lookupEntries l q := by
  simp only [setEntry, lookupEntries, lookupEntries_removeEntry]
  split <;> simp

@[simp] theorem lookupFile_with_files (fs : FS) (l : List (String × FileState)) (q : String) :
    lookupFile { fs with files := l } q = lookupEntries l q := rfl

@[simp] theorem makedirs_files (fs : FS) (d : String) : (makedirs fs d).files = fs.files := by
  unfold makedirs; split <;> rfl

@[simp] theorem makedirs_unreadable (fs : FS) (d : String) :
    (makedirs fs d).unreadable = fs.unreadable := by
  unfold makedirs; split <;> rfl

@[simp] theorem makedirs_defaultMode (fs : FS) (d : String) :
    (makedirs fs d).defaultMode = fs.defaultMode := by
  unfold makedirs; split <;> rfl

@[simp] theorem lookupFile_makedirs (fs : FS) (d : String) (q : String) :
    lookupFile (makedirs fs d) q = lookupFile fs q := by
  unfold makedirs; split <;> rfl

@[simp] theorem writeFile_dirs (fs : FS) (p c : String) : (writeFile fs p c).dirs = fs.dirs := by
  unfold writeFile; cases lookupFile fs p <;> rfl

@[simp] theorem writeFile_unreadable (fs : FS) (p c : String) :
    (writeFile fs p c).unreadable = fs.unreadable := by
  unfold writeFile; cases lookupFile fs p <;> rfl

@[simp] theorem writeFile_defaultMode (fs : FS) (p c : String) :
    (writeFile fs p c).defaultMode = fs.defaultMode := by
  unfold writeFile; cases lookupFile fs p <;> rfl

@[simp] theorem chmodFile_dirs (fs : FS) (p : String) (m : Nat) :
    (chmodFile fs p m).dirs = fs.dirs := by
  unfold chmodFile; cases lookupFile fs p <;> rfl

@[simp] theorem chmodFile_unreadable (fs : FS) (p : String) (m : Nat) :
    (chmodFile fs p m).unreadable = fs.unreadable := by
  unfold chmodFile; cases lookupFile fs p <;> rfl

@[simp] theorem chmodFile_defaultMode (fs : FS) (p : String) (m : Nat) :
    (chmodFile fs p m).defaultMode = fs.defaultMode := by
  unfold chmodFile; cases lookupFile fs p <;> rfl

@[simp] theorem moveFile_dirs (fs : FS) (src dst : String) :
    (moveFile fs src dst).dirs = fs.dirs := by
  unfold moveFile; cases lookupFile fs src <;> rfl

@[simp] theorem moveFile_unreadable (fs : FS) (src dst : String) :
    (moveFile fs src dst).unreadable = fs.unreadable := by
  unfold moveFile; cases lookupFile fs src <;> rfl

@[simp] theorem moveFile_defaultMode (fs : FS) (src dst : String) :
    (moveFile fs src dst).defaultMode = fs.defaultMode := by
  unfold moveFile; cases lookupFile fs src <;> rfl

theorem lookupFile_writeFile (fs : FS) (p c q : String) :
    lookupFile (writeFile fs p c) q =
      if p = q then
        some ⟨c, match lookupFile fs p with | some st => st.mode | none => fs.defaultMode⟩
      else lookupFile fs q := by
  unfold writeFile
  cases h : lookupFile fs p <;>
    simp only [h, lookupFile_with_files, lookupEntries_setEntry] <;> rfl

theorem lookupFile_chmodFile (fs : FS) (p : String) (m : Nat) (q : String) :
    lookupFile (chmodFile fs p m) q =
      if p = q then (lookupFile fs p).map (fun st => ⟨st.content, m⟩) else lookupFile fs q := by
  unfold chmodFile
  cases h : lookupFile fs p <;>
    simp only [h, lookupFile_with_files, lookupEntries_setEntry, Option.map]
  · by_cases hpq : p = q
    · subst hpq; simp [h]
    · simp [hpq]
  · rfl

theorem lookupFile_moveFile (fs : FS) (src dst q : String) :
    lookupFile (moveFile fs src dst) q =
      match lookupFile fs src with
      | none => lookupFile fs q
      | some st =>
        if dst = q then some st else if src = q then none else lookupFile fs q := by
  unfold moveFile
  cases h : lookupFile fs src <;>
    simp only [h, lookupFile_with_files, lookupEntries_setEntry, lookupEntries_removeEntry]
  rfl

theorem getContent_writeFile (fs : FS) (p c q : String) :
    getContent (writeFile fs p c) q = if p = q then some c else getContent fs q := by
  unfold getContent
  rw [lookupFile_writeFile]
  split <;> simp

theorem getMode_writeFile_self (fs : FS) (p c : String) :
    getMode (writeFile fs p c) p =
      some (match getMode fs p with | some m => m | none => fs.defaultMode) := by
  unfold getMode
  rw [lookupFile_writeFile]
  cases h : lookupFile fs p <;> simp [h]

theorem getMode_writeFile_ne (fs : FS) (p c q : String) (h : p ≠ q) :
    getMode (writeFile fs p c) q = getMode fs q := by
  unfold getMode
  rw [lookupFile_writeFile]
  simp [h]

theorem existsFile_writeFile_self (fs : FS) (p c : String) :
    existsFile (writeFile fs p c) p = true := by
  unfold existsFile
  rw [lookupFile_writeFile]
  simp

theorem getContent_chmodFile (fs : FS) (p : String) (m : Nat) (q : String) :
    getContent (chmodFile fs p m) q = getContent fs q := by
  unfold getContent
  rw [lookupFile_chmodFile]
  by_cases hpq : p = q
  · subst hpq; cases lookupFile fs p <;> simp
  · simp [hpq]

theorem getMode_chmodFile_self_of_exists (fs : FS) (p : String) (m : Nat)
    (h : existsFile fs p = true) : getMode (chmodFile fs p m) p = some m := by
  unfold existsFile at h
  unfold getMode
  rw [lookupFile_chmodFile]
  cases hl : lookupFile fs p <;> simp [hl] at h ⊢

theorem getMode_chmodFile_ne (fs : FS) (p : String) (m : Nat) (q : String) (h : p ≠ q) :
    getMode (chmodFile fs p m) q = getMode fs q := by
  unfold getMode
  rw [lookupFile_chmodFile]
  simp [h]

theorem existsFile_chmodFile (fs : FS) (p : String) (m : Nat) (q : String) :
    existsFile (chmodFile fs p m) q = existsFile fs q := by
  unfold existsFile
  rw [lookupFile_chmodFile]
  by_cases hpq : p = q
  · subst hpq; cases lookupFile fs p <;> simp
  · simp [hpq]

theorem existsFile_moveFile_src (fs : FS) (src dst : String) (h : src ≠ dst) :
    existsFile (moveFile fs src dst) src = false := by
  unfold existsFile
  rw [lookupFile_moveFile]
  cases hl : lookupFile fs src <;> simp [hl]
  exact fun he => absurd he.symm h

theorem existsFile_moveFile_other (fs : FS) (src dst q : String)
    (h1 : q ≠ src) (h2 : q ≠ dst) :
    existsFile (moveFile fs src dst) q = existsFile fs q := by
  unfold existsFile
  rw [lookupFile_moveFile]
  cases hl : lookupFile fs src
  · rfl
  · rename_i st
    show (if dst = q then some st else if src = q then none else lookupFile fs q).isSome = _
    have hd : ¬(dst = q) := fun he => h2 he.symm
    have hs : ¬(src = q) := fun he => h1 he.symm
    rw [if_neg hd, if_neg hs]

theorem stringAppendCancelLeft {a x y : String} (h : a ++ x = a ++ y) : x = y := by
  have hd : a.data ++ x.data = a.data ++ y.data := congrArg String.data h
  exact congrArg String.mk (List.append_cancel_left hd)

theorem stringAppendNeOfNe (a : String) {x y : String} (h : x ≠ y) : a ++ x ≠ a ++ y :=
  fun he => h (stringAppendCancelLeft he)

theorem pyJoin_ne_pyJoin (a n1 n2 : String)
    (h1 : startsWithSlash n1 = false) (h2 : startsWithSlash n2 = false) (hne : n1 ≠ n2) :
    pyJoin a n1 ≠ pyJoin a n2 := by
  unfold pyJoin
  rw [h1, h2]
  by_cases hc : a = "" ∨ endsWithSlash a = true
  · simp only [if_neg Bool.false_ne_true, if_pos hc]
    exact stringAppendNeOfNe a hne
  · simp only [if_neg Bool.false_ne_true, if_neg hc]
    exact stringAppendNeOfNe (a ++ "/") hne

theorem neOfHeadNe {x y : String} (h : x.data.head? ≠ y.data.head?) : x ≠ y :=
  fun he => h (congrArg (fun s : String => s.data.head?) he)

theorem pyJoin_cases (a b : String) (hb : startsWithSlash b = false) :
    pyJoin a b = a ++ b ∨ pyJoin a b = (a ++ "/") ++ b := by
  unfold pyJoin
  rw [hb]
  by_cases hc : a = "" ∨ endsWithSlash a = true
  · left; simp only [if_neg Bool.false_ne_true, if_pos hc]
  · right; simp only [if_neg Bool.false_ne_true, if_neg hc]

theorem pyJoin_same_base (a n1 n2 : String) (h1 : startsWithSlash n1 = false)
    (h2 : startsWithSlash n2 = false) :
    ∃ base, pyJoin a n1 = base ++ n1 ∧ pyJoin a n2 = base ++ n2 := by
  unfold pyJoin
  rw [h1, h2]
  by_cases hc : a = "" ∨ endsWithSlash a = true
  · exact ⟨a, by simp only [if_neg Bool.false_ne_true, if_pos hc],
      by simp only [if_neg Bool.false_ne_true, if_pos hc]⟩
  · exact ⟨a ++ "/", by simp only [if_neg Bool.false_ne_true, if_neg hc],
      by simp only [if_neg Bool.false_ne_true, if_neg hc]⟩

theorem archiveHeadA (t : String) : (("archive" : String) ++ t).data.head? = some 'a' := rfl

theorem archivedPath_ne (folder n tsn : String)
    (hn : startsWithSlash n = false) (htsn : startsWithSlash tsn = false)
    (hhead : n.data.head? ≠ some 'a') :
    pyJoin (pyJoin folder "archive") tsn ≠ pyJoin folder n := by
  obtain ⟨base, hAF, hRHS⟩ := pyJoin_same_base folder "archive" n rfl hn
  have key : ∀ t : String, base ++ (("archive" : String) ++ t) ≠ pyJoin folder n := by
    intro t
    rw [hRHS]
    exact stringAppendNeOfNe base (fun he => hhead (he ▸ archiveHeadA t))
  rcases pyJoin_cases (pyJoin folder "archive") tsn htsn with hL | hL
  · rw [hL, hAF, String.append_assoc]
    exact key tsn
  · rw [hL, hAF, String.append_assoc, String.append_assoc]
    exact key ("/" ++ tsn)

theorem existsFile_archiveOne_self (ts : String) (fs : FS) (folder name : String)
    (hname : startsWithSlash name = false)
    (hts : startsWithSlash (name ++ "_" ++ ts) = false)
    (hhead : name.data.head? ≠ some 'a') :
    existsFile (archiveOne ts fs folder name).1 (pyJoin folder name) = false := by
  simp only [archiveOne]
  cases hb : existsFile fs (pyJoin folder name)
  · rw [if_neg Bool.false_ne_true]
    exact hb
  · rw [if_pos rfl]
    exact existsFile_moveFile_src fs _ _
      (Ne.symm (archivedPath_ne folder name (name ++ "_" ++ ts) hname hts hhead))

theorem existsFile_archiveOne_other (ts : String) (fs : FS) (folder name p : String)
    (hsrc : p ≠ pyJoin folder name)
    (hdst : p ≠ pyJoin (pyJoin folder "archive") (name ++ "_" ++ ts)) :
    existsFile (archiveOne ts fs folder name).1 p = existsFile fs p := by
  simp only [archiveOne]
  cases hb : existsFile fs (pyJoin folder name)
  · rw [if_neg Bool.false_ne_true]
  · rw [if_pos rfl]
    exact existsFile_moveFile_other fs _ _ _ hsrc hdst

theorem existsFile_archivePhase_certFile (ts : Nat → String) (fs : FS) (folder : String) :
    existsFile (archivePhase ts fs folder).1 (pyJoin folder "certificate.pem") = false := by
  simp only [archivePhase]
  rw [existsFile_archiveOne_other (ts 2) _ folder "combined.pem" (pyJoin folder "certificate.pem")
        (pyJoin_ne_pyJoin folder "certificate.pem" "combined.pem" rfl rfl (by decide))
        (Ne.symm (archivedPath_ne folder "certificate.pem" ("combined.pem" ++ "_" ++ ts 2) rfl rfl (by decide))),
      existsFile_archiveOne_other (ts 1) _ folder "private_key.pem" (pyJoin folder "certificate.pem")
        (pyJoin_ne_pyJoin folder "certificate.pem" "private_key.pem" rfl rfl (by decide))
        (Ne.symm (archivedPath_ne folder "certificate.pem" ("private_key.pem" ++ "_" ++ ts 1) rfl rfl (by decide))),
      existsFile_archiveOne_self (ts 0) _ folder "certificate.pem" rfl rfl (by decide)]

theorem compare_certificates_diags (fs : FS) (cf kf c k : String) :
    (compare_certificates fs cf kf c k).2 = [] ∨
      (compare_certificates fs cf kf c k).2 = [Diag.compareError] := by
  unfold compare_certificates
  split
  · split
    · right; rfl
    · cases getContent fs cf <;> cases getContent fs kf <;> simp <;> split <;> simp
  · left; rfl

theorem archiveOne_diags (ts : String) (fs : FS) (folder name : String) :
    (archiveOne ts fs folder name).2 = [] ∨
      ∃ d, (archiveOne ts fs folder name).2 = [Diag.archived name d] := by
  simp only [archiveOne]
  split
  · right; exact ⟨_, rfl⟩
  · left; rfl

theorem skipping_not_mem_archivePhase (ts : Nat → String) (fs : FS) (folder : String)
    (d : String) : Diag.skipping d ∉ (archivePhase ts fs folder).2 := by
  simp only [archivePhase]
  intro hmem
  rcases List.mem_append.mp hmem with hmem | h3
  · rcases List.mem_append.mp hmem with h1 | h2
    · rcases archiveOne_diags (ts 0) _ folder "certificate.pem" with he | ⟨x, he⟩ <;>
        rw [he] at h1 <;> simp at h1
    · rcases archiveOne_diags (ts 1) _ folder "private_key.pem" with he | ⟨x, he⟩ <;>
        rw [he] at h2 <;> simp at h2
  · rcases archiveOne_diags (ts 2) _ folder "combined.pem" with he | ⟨x, he⟩ <;>
      rw [he] at h3 <;> simp at h3

theorem mem_makedirs_dirs (fs : FS) (x d : String) (h : d ∈ fs.dirs) :
    d ∈ (makedirs fs x).dirs := by
  unfold makedirs
  split
  · exact h
  · exact List.mem_cons_of_mem _ h

theorem self_mem_makedirs_dirs (fs : FS) (d : String) : d ∈ (makedirs fs d).dirs := by
  unfold makedirs
  split
  · assumption
  · exact List.mem_cons_self _ _

theorem mem_archivePhase_dirs (ts : Nat → String) (fs : FS) (folder d : String)
    (h : d ∈ fs.dirs) : d ∈ (archivePhase ts fs folder).1.dirs := by
  simp only [archivePhase, archiveOne]
  split <;> split <;> split <;> simp only [moveFile_dirs] <;>
    exact mem_makedirs_dirs fs _ d h

theorem tryBody_ok (cfg : Config) (ts : Nat → String) (fs : FS)
    (domain cb kb : Json) (r : FS × Nat × List Diag)
    (h : tryBody cfg ts fs domain cb kb = .ok r) :
    ∃ od sd c k, fsPhase cfg ts fs od sd c k = r := by
  unfold tryBody at h
  cases h1 : pyB64decode cb <;> simp only [h1] at h
  · cases h
  rename_i certBytes
  cases h2 : utf8Decode certBytes <;> simp only [h2] at h
  · cases h
  rename_i certificate
  cases h3 : pyB64decode kb <;> simp only [h3] at h
  · cases h
  rename_i keyBytes
  cases h4 : utf8Decode keyBytes <;> simp only [h4] at h
  · cases h
  rename_i key
  cases h5 : pyReplaceStar domain <;> simp only [h5] at h
  · cases h
  rename_i pr
  obtain ⟨od, sd⟩ := pr
  cases h
  exact ⟨od, sd, certificate, key, rfl⟩

theorem processRecord_ok_shape (cfg : Config) (ts : Nat → String) (fs : FS) (item : Json)
    (fs' : FS) (n : Nat) (ds : List Diag)
    (h : processRecord cfg ts fs item = .ok (fs', n, ds)) :
    (fs' = fs ∧ n = 0) ∨ ∃ od sd c k, fsPhase cfg ts fs od sd c k = (fs', n, ds) := by
  unfold processRecord at h
  cases hp : preTry item with
  | error e =>
    simp only [hp] at h
    cases h
  | ok triple =>
    obtain ⟨domain, cb, kb⟩ := triple
    simp only [hp] at h
    by_cases ht : (pyTruthy cb && pyTruthy kb) = true
    · rw [if_pos ht] at h
      cases htb : tryBody cfg ts fs domain cb kb <;> simp only [htb] at h
      · cases h
        left; exact ⟨rfl, rfl⟩
      · rename_i r
        cases h
        right
        exact tryBody_ok cfg ts fs domain cb kb _ htb
    · rw [if_neg ht] at h
      cases h
      left; exact ⟨rfl, rfl⟩

theorem fsPhase_cases (cfg : Config) (ts : Nat → String) (fs : FS)
    (od sd c k : String) (fs' : FS) (n : Nat) (ds : List Diag)
    (folder cf kf mf : String)
    (hfolder : folder = pyJoin cfg.output_dir sd)
    (hcf : cf = pyJoin folder "certificate.pem")
    (hkf : kf = pyJoin folder "private_key.pem")
    (hmf : mf = pyJoin folder "combined.pem")
    (h : fsPhase cfg ts fs od sd c k = (fs', n, ds)) :
    (cfg.skip_existing = true ∧
      (compare_certificates (makedirs fs folder) cf kf c k).1 = true ∧
      n = 0 ∧ fs' = makedirs fs folder ∧
      ds = (compare_certificates (makedirs fs folder) cf kf c k).2 ++ [Diag.skipping od]) ∨
    (n = 1 ∧
      fs' = writeOutputs
        (if cfg.archive_old = true then (archivePhase ts (makedirs fs folder) folder).1
         else makedirs fs folder) cf kf mf c k ∧
      ds = (if cfg.skip_existing = true then
              (compare_certificates (makedirs fs folder) cf kf c k).2
            else []) ++
           (if cfg.archive_old = true then (archivePhase ts (makedirs fs folder) folder).2
            else [])) := by
  subst hfolder hcf hkf hmf
  simp only [fsPhase] at h
  by_cases hs : cfg.skip_existing = true
  · rw [if_pos hs] at h
    by_cases hc : (compare_certificates (makedirs fs (pyJoin cfg.output_dir sd))
        (pyJoin (pyJoin cfg.output_dir sd) "certificate.pem")
        (pyJoin (pyJoin cfg.output_dir sd) "private_key.pem") c k).1 = true
    · rw [if_pos hc] at h
      simp only [Prod.mk.injEq] at h
      obtain ⟨h1, h2, h3⟩ := h
      exact Or.inl ⟨hs, hc, h2.symm, h1.symm, h3.symm⟩
    · rw [if_neg hc] at h
      by_cases ha : cfg.archive_old = true
      · rw [if_pos ha] at h
        simp only [Prod.mk.injEq] at h
        obtain ⟨h1, h2, h3⟩ := h
        refine Or.inr ⟨h2.symm, ?_, ?_⟩
        · rw [if_pos ha]; exact h1.symm
        · rw [if_pos hs, if_pos ha]; exact h3.symm
      · rw [if_neg ha] at h
        simp only [Prod.mk.injEq] at h
        obtain ⟨h1, h2, h3⟩ := h
        refine Or.inr ⟨h2.symm, ?_, ?_⟩
        · rw [if_neg ha]; exact h1.symm
        · rw [if_pos hs, if_neg ha]; exact h3.symm
  · rw [if_neg hs, if_neg (fun hfalse => Bool.false_ne_true hfalse)] at h
    by_cases ha : cfg.archive_old = true
    · rw [if_pos ha] at h
      simp only [Prod.mk.injEq] at h
      obtain ⟨h1, h2, h3⟩ := h
      refine Or.inr ⟨h2.symm, ?_, ?_⟩
      · rw [if_pos ha]; exact h1.symm
      · rw [if_neg hs, if_pos ha]; exact h3.symm
    · rw [if_neg ha] at h
      simp only [Prod.mk.injEq] at h
      obtain ⟨h1, h2, h3⟩ := h
      refine Or.inr ⟨h2.symm, ?_, ?_⟩
      · rw [if_neg ha]; exact h1.symm
      · rw [if_neg hs, if_neg ha]; exact h3.symm

theorem existsFile_writeFile_ne (fs : FS) (p c q : String) (h : p ≠ q) :
    existsFile (writeFile fs p c) q = existsFile fs q := by
  unfold existsFile
  rw [lookupFile_writeFile, if_neg h]

theorem writeOutputs_contents (fs : FS) (cf kf mf c k : String)
    (h1 : cf ≠ kf) (h2 : cf ≠ mf) (h3 : kf ≠ mf) :
    getContent (writeOutputs fs cf kf mf c k) cf = some c ∧
    getContent (writeOutputs fs cf kf mf c k) kf = some k ∧
    getContent (writeOutputs fs cf kf mf c k) mf = some (c ++ k) := by
  unfold writeOutputs
  refine ⟨?_, ?_, ?_⟩
  · rw [getContent_chmodFile, getContent_chmodFile, getContent_writeFile,
      if_neg (fun he => h2 he.symm), getContent_writeFile, if_neg (fun he => h1 he.symm),
      getContent_writeFile, if_pos rfl]
  · rw [getContent_chmodFile, getContent_chmodFile, getContent_writeFile,
      if_neg (fun he => h3 he.symm), getContent_writeFile, if_pos rfl]
  · rw [getContent_chmodFile, getContent_chmodFile, getContent_writeFile, if_pos rfl]

theorem writeOutputs_modes (fs : FS) (cf kf mf c k : String)
    (h1 : cf ≠ kf) (h2 : cf ≠ mf) (h3 : kf ≠ mf) :
    getMode (writeOutputs fs cf kf mf c k) kf = some 0o600 ∧
    getMode (writeOutputs fs cf kf mf c k) mf = some 0o600 ∧
    getMode (writeOutputs fs cf kf mf c k) cf =
      some (match getMode fs cf with | some m => m | none => fs.defaultMode) := by
  unfold writeOutputs
  refine ⟨?_, ?_, ?_⟩
  · have hex : existsFile (writeFile (writeFile (writeFile fs cf c) kf k) mf (c ++ k)) kf
        = true := by
      rw [existsFile_writeFile_ne _ _ _ _ (fun he => h3 he.symm)]
      exact existsFile_writeFile_self _ _ _
    rw [getMode_chmodFile_ne _ _ _ _ (fun he => h3 he.symm),
      getMode_chmodFile_self_of_exists _ _ _ hex]
  · have hex : existsFile
        (chmodFile (writeFile (writeFile (writeFile fs cf c) kf k) mf (c ++ k)) kf 0o600) mf
        = true := by
      rw [existsFile_chmodFile]
      exact existsFile_writeFile_self _ _ _
    rw [getMode_chmodFile_self_of_exists _ _ _ hex]
  · rw [getMode_chmodFile_ne _ _ _ _ (fun he => h2 he.symm),
      getMode_chmodFile_ne _ _ _ _ (fun he => h1 he.symm),
      getMode_writeFile_ne _ _ _ _ (fun he => h2 he.symm),
      getMode_writeFile_ne _ _ _ _ (fun he => h1 he.symm),
      getMode_writeFile_self]

theorem strReplaceF_star : ∀ (n : Nat) (s : List Char), s.length ≤ n →
    strReplaceF n s (("*" : String).data) (("wildcard" : String).data) = sanitizeSpecList s := by
  intro n
  induction n with
  | zero =>
    intro s hs
    cases s with
    | nil => rfl
    | cons c rest => simp at hs
  | succ n ih =>
    intro s hs
    cases s with
    | nil => rfl
    | cons c rest =>
      simp only [strReplaceF]
      by_cases hc : c = '*'
      · subst hc
        rw [if_pos (show ((['*'] : List Char).isPrefixOf ('*' :: rest) = true) from by
          simp [List.isPrefixOf])]
        show _ = sanitizeSpecList ('*' :: rest)
        simp only [sanitizeSpecList, if_pos rfl, if_true]
        exact congrArg _ (ih rest (Nat.le_of_succ_le_succ hs))
      · have hpre : (("*" : String).data.isPrefixOf (c :: rest)) = false := by
          simp only [List.isPrefixOf, Bool.and_eq_false_iff]
          left
          exact beq_eq_false_iff_ne.mpr (fun he => hc he.symm)
        rw [if_neg (by rw [hpre]; exact Bool.false_ne_true)]
        simp only [sanitizeSpecList, if_neg hc]
        exact congrArg _ (ih rest (Nat.le_of_succ_le_succ hs))

theorem sanitizeSpecList_id (l : List Char) (h : '*' ∉ l) : sanitizeSpecList l = l := by
  induction l with
  | nil => rfl
  | cons c rest ih =>
    simp only [sanitizeSpecList]
    rw [if_neg (fun he => h (List.mem_cons.mpr (Or.inl he.symm)))]
    rw [ih (fun hm => h (List.mem_cons_of_mem c hm))]
    rfl

theorem stringMkData (s : String) : String.mk s.data = s := rfl

/-- Claim C7: for every resolved domain name, the output folder name is the
domain with every `*` character replaced by the literal string `wildcard`
(first conjunct, comparing the source-translated `sanitizeDomain` — used by
`fsPhase` to build the folder path — with the claim-worded character map
`sanitizeSpecList`); a domain containing no `*` is used verbatim as the
folder name (second conjunct). -/
theorem C7_domain_sanitization (s : String) :
    sanitizeDomain s = String.mk (sanitizeSpecList s.data) ∧
      ('*' ∉ s.data → sanitizeDomain s = s) := by
  have h1 : sanitizeDomain s = String.mk (sanitizeSpecList s.data) :=
    congrArg String.mk (strReplaceF_star s.data.length s.data (Nat.le_refl _))
  refine ⟨h1, fun hno => ?_⟩
  rw [h1, sanitizeSpecList_id s.data hno, stringMkData]

/-- Witness for C7 at the concrete domain `example.com` (no `*`). -/
theorem C7_domain_sanitization_witness :
    ('*' ∉ ("example.com" : String).data) ∧ sanitizeDomain "example.com" = "example.com" :=
  ⟨by decide, (C7_domain_sanitization "example.com").2 (by decide)⟩

/-- Counterexample to claim C3 as stated: the record
`{"domain": {}, "domains": [{"main": "x"}]}` has a `domain` field without
`main` that is an empty map, and a `domains` list whose (only) element has a
`main` sub-field `"x"`.  Rule (2) of the claimed precedence does not match
(the map is empty) and rule (3) does, so the claim requires the resolved
domain to be `x`; the code resolves `unknown` because its `elif` never
consults `domains` once a `domain` field is present. -/
theorem C3_counterexample :
    resolveDomain (Json.obj [("domain", Json.obj []),
        ("domains", Json.arr [Json.obj [("main", Json.str "x")]])])
      = Except.ok (Json.str "unknown") ∧
    Except.ok (Json.str "unknown") ≠ (Except.ok (Json.str "x") : Except PyErr Json) := by
  refine ⟨rfl, fun h => ?_⟩
  injection h with h2
  injection h2 with h3
  exact absurd h3 (by decide)

/-- Claim C3 (amended): for every record (a JSON object whose `domain` field,
if present, is a map, and whose `domains` field, if present, is a list of
maps), the resolved domain follows this precedence, first match wins:
(1) the `main` sub-field of the `domain` field when present; (2) the value of
the first entry of a non-empty `domain` map without `main`, an empty
`domain` map resolving to `unknown` even when a `domains` list is also
present; (3) when there is no `domain` field, the `main` sub-field of the
FIRST element of a non-empty `domains` list, with an uncaught `KeyError`
when that first element lacks `main`; (4) otherwise the literal `unknown`.
Stated as: `resolveDomain` (translated from the source) agrees with
`domainSpecC3` (written from the amended wording). -/
theorem C3_domain_resolution_amended (kvs : List (String × Json))
    (hdom : ∀ d, pyLookup kvs "domain" = some d → ∃ dkvs, d = Json.obj dkvs)
    (hdoms : ∀ d, pyLookup kvs "domains" = some d →
      ∃ es, d = Json.arr es ∧ ∀ e ∈ es, ∃ ekvs, e = Json.obj ekvs) :
    resolveDomain (Json.obj kvs) = domainSpecC3 kvs := by
  cases h1 : pyLookup kvs "domain" with
  | some d =>
    obtain ⟨dkvs, rfl⟩ := hdom d h1
    cases h2 : pyLookup dkvs "main" with
    | some v =>
      simp [resolveDomain, domainSpecC3, pyContains, pyIndexStr, h1, h2]
    | none =>
      cases dkvs with
      | nil =>
        simp [resolveDomain, domainSpecC3, pyContains, pyIndexStr, pyTruthy, h1, h2]
      | cons hd tl =>
        obtain ⟨k0, v0⟩ := hd
        simp [resolveDomain, domainSpecC3, pyContains, pyIndexStr, pyIndexNat, pyTruthy,
          h1, h2]
  | none =>
    cases h2 : pyLookup kvs "domains" with
    | some d =>
      obtain ⟨es, rfl, hel⟩ := hdoms d h2
      cases es with
      | nil =>
        simp [resolveDomain, domainSpecC3, pyContains, pyIndexStr, pyTruthy, h1, h2]
      | cons e0 tl =>
        obtain ⟨ekvs, rfl⟩ := hel e0 (List.mem_cons_self e0 tl)
        cases h3 : pyLookup ekvs "main" with
        | some v =>
          simp [resolveDomain, domainSpecC3, pyContains, pyIndexStr, pyIndexNat, pyTruthy,
            h1, h2, h3]
        | none =>
          simp [resolveDomain, domainSpecC3, pyContains, pyIndexStr, pyIndexNat, pyTruthy,
            h1, h2, h3]
    | none =>
      simp [resolveDomain, domainSpecC3, pyContains, pyIndexStr, h1, h2]

/-- Witness for the amended C3 at the record
`{"domain": {"main": "a.com"}}`: the precedence's rule (1) applies. -/
theorem C3_domain_resolution_amended_witness :
    resolveDomain (Json.obj [("domain", Json.obj [("main", Json.str "a.com")])])
      = domainSpecC3 [("domain", Json.obj [("main", Json.str "a.com")])] :=
  C3_domain_resolution_amended [("domain", Json.obj [("main", Json.str "a.com")])]
    (fun d hd => ⟨[("main", Json.str "a.com")], by injection hd with h; exact h.symm⟩)
    (fun d hd => by simp [pyLookup] at hd)

/-- Claim C8: if the input path does not exist or its content is not valid
JSON, `extract_certificates` exits with a non-zero status (`sys.exit(1)`,
modelled by `RunResult.exit1`) and the file system is returned unchanged —
no output directory or file is created.  Since these are the only two
non-`parsed` inputs, the output directory can only ever be created on the
path where the input file was successfully read and parsed. -/
theorem C8_input_failure (cfg : Config) (ts : Nat → Nat → String) (fs : FS) :
    extract_certificates cfg ts fs InputFile.missing
        = RunResult.exit1 fs [Diag.fileNotFound] ∧
      extract_certificates cfg ts fs InputFile.invalid
        = RunResult.exit1 fs [Diag.notValidJson] :=
  ⟨rfl, rfl⟩

theorem writeOutputs_dirs (fs : FS) (cf kf mf c k : String) :
    (writeOutputs fs cf kf mf c k).dirs = fs.dirs := by
  simp [writeOutputs]

theorem mem_dirs_processRecord (cfg : Config) (ts : Nat → String) (fs : FS) (item : Json)
    (fs' : FS) (n : Nat) (ds : List Diag)
    (h : processRecord cfg ts fs item = Except.ok (fs', n, ds))
    (d : String) (hd : d ∈ fs.dirs) : d ∈ fs'.dirs := by
  rcases processRecord_ok_shape cfg ts fs item fs' n ds h with ⟨rfl, _⟩ | ⟨od, sd, c, k, hf⟩
  · exact hd
  · rcases fsPhase_cases cfg ts fs od sd c k fs' n ds _ _ _ _ rfl rfl rfl rfl hf with
      ⟨_, _, _, hfs, _⟩ | ⟨_, hfs, _⟩
    · rw [hfs]; exact mem_makedirs_dirs fs _ d hd
    · rw [hfs, writeOutputs_dirs]
      by_cases ha : cfg.archive_old = true
      · rw [if_pos ha]
        exact mem_archivePhase_dirs ts _ _ d (mem_makedirs_dirs fs _ d hd)
      · rw [if_neg ha]
        exact mem_makedirs_dirs fs _ d hd

theorem mem_dirs_runLoop (cfg : Config) (ts : Nat → Nat → String) (items : List Json)
    (i : Nat) (fs : FS) (count : Nat) (diags : List Diag) (d : String) (hd : d ∈ fs.dirs) :
    d ∈ (resultFS (runLoop cfg ts items i fs count diags)).dirs := by
  induction items generalizing i fs count diags with
  | nil => exact hd
  | cons item rest ih =>
    simp only [runLoop]
    cases hp : processRecord cfg (ts i) fs item with
    | error e => exact hd
    | ok r =>
      obtain ⟨fs', n', ds'⟩ := r
      exact ih _ _ _ _ (mem_dirs_processRecord cfg (ts i) fs item fs' n' ds' hp d hd)

/-- Claim C10: whenever the input file parses as valid JSON, the output
directory itself is created before any certificate records are examined:
every run of `extract_certificates` on a `parsed` store — including a run
that finds zero certificates, and even a run that crashes on a malformed
record — ends with `cfg.output_dir` among the existing directories. -/
theorem extract_parsed_eq (cfg : Config) (ts : Nat → Nat → String) (fs : FS) (data : Json) :
    extract_certificates cfg ts fs (InputFile.parsed data) =
      (match certListOf data with
       | Except.error e => RunResult.crashed (makedirs fs cfg.output_dir) [] e
       | Except.ok certs =>
         if pyTruthy certs = true then
           match pyIter certs with
           | Except.error e => RunResult.crashed (makedirs fs cfg.output_dir) [] e
           | Except.ok items => runLoop cfg ts items 0 (makedirs fs cfg.output_dir) 0 []
         else RunResult.done (makedirs fs cfg.output_dir) [Diag.noCerts]) := rfl

theorem C10_output_dir_created (cfg : Config) (ts : Nat → Nat → String) (fs : FS)
    (data : Json) :
    cfg.output_dir ∈
      (resultFS (extract_certificates cfg ts fs (InputFile.parsed data))).dirs := by
  rw [extract_parsed_eq]
  have hbase : cfg.output_dir ∈ (makedirs fs cfg.output_dir).dirs :=
    self_mem_makedirs_dirs fs _
  cases hc : certListOf data with
  | error e => simp only [hc]; exact hbase
  | ok certs =>
    simp only [hc]
    by_cases ht : pyTruthy certs = true
    · rw [if_pos ht]
      cases hi : pyIter certs with
      | error e => simp only [hi]; exact hbase
      | ok items =>
        simp only [hi]
        exact mem_dirs_runLoop cfg ts items 0 _ 0 [] _ hbase
    · rw [if_neg ht]
      exact hbase

/-- Claim C6: the certificate list is taken from `letsencrypt.Certificates`
(first conjunct: present and non-empty wins); if that is absent or empty it
is taken from `acme.Certificates` (second conjunct, with absence modelled by
the `.get` defaults exactly as in the source); if both are absent or empty
the run prints the no-certificates diagnostic, extracts zero records and
returns normally (third conjunct, `RunResult.done`, i.e. exit status zero);
and a store holding only `acme.Certificates` is processed identically to one
holding only `letsencrypt.Certificates` (fourth conjunct). -/
theorem C6_certificate_list_fallback (cfg : Config) (ts : Nat → Nat → String) (fs : FS) :
    (∀ kvs lkvs certs, pyLookup kvs "letsencrypt" = some (Json.obj lkvs) →
      pyLookup lkvs "Certificates" = some certs → pyTruthy certs = true →
      certListOf (Json.obj kvs) = Except.ok certs) ∧
    (∀ data le cd ac, pyGetDefault data "letsencrypt" (Json.obj []) = Except.ok le →
      pyGetDefault le "Certificates" (Json.arr []) = Except.ok cd → pyTruthy cd = false →
      pyGetDefault data "acme" (Json.obj []) = Except.ok ac →
      certListOf data = pyGetDefault ac "Certificates" (Json.arr [])) ∧
    (∀ data v, certListOf data = Except.ok v → pyTruthy v = false →
      extract_certificates cfg ts fs (InputFile.parsed data) =
        RunResult.done (makedirs fs cfg.output_dir) [Diag.noCerts]) ∧
    (∀ certs,
      extract_certificates cfg ts fs
          (InputFile.parsed (Json.obj [("letsencrypt", Json.obj [("Certificates", certs)])]))
        = extract_certificates cfg ts fs
          (InputFile.parsed (Json.obj [("acme", Json.obj [("Certificates", certs)])]))) := by
  refine ⟨?_, ?_, ?_, ?_⟩
  · intro kvs lkvs certs h1 h2 ht
    simp only [certListOf, pyGetDefault, h1, h2]
    rw [if_pos ht]
  · intro data le cd ac h1 h2 hf h3
    simp only [certListOf, h1, h2, h3]
    rw [if_neg (by rw [hf]; exact Bool.false_ne_true)]
  · intro data v h1 h2
    rw [extract_parsed_eq]
    simp only [h1]
    rw [if_neg (by rw [h2]; exact Bool.false_ne_true)]
  · intro certs
    have e1 : certListOf (Json.obj [("letsencrypt", Json.obj [("Certificates", certs)])])
        = (if pyTruthy certs = true then Except.ok certs else Except.ok (Json.arr [])) := rfl
    have e2 : certListOf (Json.obj [("acme", Json.obj [("Certificates", certs)])])
        = Except.ok certs := rfl
    by_cases ht : pyTruthy certs = true
    · rw [extract_parsed_eq, extract_parsed_eq, e1, e2, if_pos ht]
    · have l1 : extract_certificates cfg ts fs
          (InputFile.parsed (Json.obj [("letsencrypt", Json.obj [("Certificates", certs)])]))
          = RunResult.done (makedirs fs cfg.output_dir) [Diag.noCerts] := by
        rw [extract_parsed_eq, e1, if_neg ht]
        rfl
      have r1 : extract_certificates cfg ts fs
          (InputFile.parsed (Json.obj [("acme", Json.obj [("Certificates", certs)])]))
          = RunResult.done (makedirs fs cfg.output_dir) [Diag.noCerts] := by
        rw [extract_parsed_eq, e2]
        show (if pyTruthy certs = true then _ else
          RunResult.done (makedirs fs cfg.output_dir) [Diag.noCerts]) = _
        rw [if_neg ht]
      exact l1.trans r1.symm

/-- Witness for C6 at a concrete one-record store under the `acme` key:
conjunct three applied to the empty store, whose certificate list is empty. -/
theorem C6_certificate_list_fallback_witness :
    certListOf (Json.obj []) = Except.ok (Json.arr []) ∧
    pyTruthy (Json.arr []) = false ∧
    extract_certificates ⟨"out", false, false⟩ (fun _ _ => "T") ⟨[], [], [], 438⟩
        (InputFile.parsed (Json.obj []))
      = RunResult.done (makedirs ⟨[], [], [], 438⟩ "out") [Diag.noCerts] :=
  ⟨rfl, rfl,
    (C6_certificate_list_fallback ⟨"out", false, false⟩ (fun _ _ => "T")
      ⟨[], [], [], 438⟩).2.2.1 (Json.obj []) (Json.arr []) rfl rfl⟩

/-- Counterexample to claim C1 as stated: processing the record
`{"domains": [{}]}` raises `KeyError` during domain resolution — the
`domains` list is non-empty, so the code evaluates
`cert_data['domains'][0]['main']`, and the first element has no `main`.
Domain resolution happens before the per-record `try` block, so the
exception escapes the loop uncaught (modelled by `Except.error`), instead
of being caught at the failing operation and converted into a diagnostic. -/
theorem C1_counterexample :
    processRecord ⟨"out", false, false⟩ (fun _ => "T") ⟨[], [], [], 438⟩
        (Json.obj [("domains", Json.arr [Json.obj []])])
      = Except.error PyErr.keyError := rfl

/-- Claim C1 (amended): for every record, any failure from the base64 decode
step onward (decoding, UTF-8 interpretation, domain sanitization; the
file-system steps are total in the model because the source catches their
environmental errors) is caught at the point of the failing operation and
converted into a printed `errorProcessing` diagnostic naming the record's
domain, after which iteration continues with the next record and the file
system is untouched; but a failure in the pre-`try` phase — domain
resolution or the two field accesses — escapes the per-record loop
uncaught. -/
theorem C1_per_record_errors_amended (cfg : Config) (ts : Nat → String) (fs : FS)
    (item : Json) :
    (∀ d cb kb, preTry item = Except.ok (d, cb, kb) →
      (∃ r, processRecord cfg ts fs item = Except.ok r) ∧
      (∀ e, (pyTruthy cb && pyTruthy kb) = true →
        tryBody cfg ts fs d cb kb = Except.error e →
        processRecord cfg ts fs item = Except.ok (fs, 0, [Diag.errorProcessing d e]))) ∧
    (∀ e, preTry item = Except.error e →
      processRecord cfg ts fs item = Except.error e) := by
  constructor
  · intro d cb kb hp
    constructor
    · unfold processRecord
      simp only [hp]
      by_cases ht : (pyTruthy cb && pyTruthy kb) = true
      · rw [if_pos ht]
        cases htb : tryBody cfg ts fs d cb kb with
        | error e => exact ⟨(fs, 0, [Diag.errorProcessing d e]), by simp only [htb]⟩
        | ok r => exact ⟨r, by simp only [htb]⟩
      · rw [if_neg ht]
        exact ⟨(fs, 0, []), rfl⟩
    · intro e ht htb
      unfold processRecord
      simp only [hp]
      rw [if_pos ht]
      simp only [htb]
  · intro e hp
    unfold processRecord
    simp only [hp]

/-- Witness for the amended C1: a well-formed record (`QQ==`/`Qg==` decode
to `A`/`B`) whose pre-`try` phase succeeds; processing yields no uncaught
exception. -/
theorem C1_per_record_errors_amended_witness :
    preTry (Json.obj [("domain", Json.obj [("main", Json.str "a")]),
        ("certificate", Json.str "QQ=="), ("key", Json.str "Qg==")])
      = Except.ok (Json.str "a", Json.str "QQ==", Json.str "Qg==") ∧
    (∃ r, processRecord ⟨"out", false, false⟩ (fun _ => "T") ⟨[], [], [], 438⟩
        (Json.obj [("domain", Json.obj [("main", Json.str "a")]),
          ("certificate", Json.str "QQ=="), ("key", Json.str "Qg==")])
      = Except.ok r) :=
  ⟨rfl,
    ((C1_per_record_errors_amended ⟨"out", false, false⟩ (fun _ => "T") ⟨[], [], [], 438⟩
      (Json.obj [("domain", Json.obj [("main", Json.str "a")]),
        ("certificate", Json.str "QQ=="), ("key", Json.str "Qg==")])).1
      (Json.str "a") (Json.str "QQ==") (Json.str "Qg==") rfl).1⟩

/-- Counterexample to claim C2 as stated: the record
`{"domain": {"main": "a.com"}, "certificate": "", "key": "QQ=="}` has an
empty `certificate` field; the claim requires it to be skipped WITH a
printed diagnostic naming the resolved domain, but the code's
`if certificate_b64 and key_b64:` has no else branch, so the record is
skipped silently — the diagnostic list of the result is `[]`. -/
theorem C2_counterexample :
    processRecord ⟨"out", false, false⟩ (fun _ => "T") ⟨[], [], [], 438⟩
        (Json.obj [("domain", Json.obj [("main", Json.str "a.com")]),
          ("certificate", Json.str ""), ("key", Json.str "QQ==")])
      = Except.ok (⟨[], [], [], 438⟩, 0, ([] : List Diag)) := rfl

/-- Claim C2 (amended): for every record whose pre-`try` phase succeeds,
(i) if the `certificate` or `key` field is empty (falsy), the record is
skipped SILENTLY — no diagnostic is printed, the file system is unchanged,
and iteration continues with the next record; (ii) if the base64 decode or
UTF-8 interpretation fails, the record is skipped with a printed diagnostic
naming the resolved domain, and iteration continues with the next record. -/
theorem C2_empty_and_decode_failures_amended (cfg : Config) (ts : Nat → String) (fs : FS)
    (item : Json) :
    ∀ d cb kb, preTry item = Except.ok (d, cb, kb) →
      ((pyTruthy cb && pyTruthy kb) = false →
        processRecord cfg ts fs item = Except.ok (fs, 0, [])) ∧
      (∀ e, (pyTruthy cb && pyTruthy kb) = true →
        tryBody cfg ts fs d cb kb = Except.error e →
        processRecord cfg ts fs item = Except.ok (fs, 0, [Diag.errorProcessing d e])) := by
  intro d cb kb hp
  constructor
  · intro hf
    unfold processRecord
    simp only [hp]
    rw [if_neg (by rw [hf]; exact Bool.false_ne_true)]
  · intro e ht htb
    unfold processRecord
    simp only [hp]
    rw [if_pos ht]
    simp only [htb]

/-- Witness for the amended C2 at a record whose `certificate` field is not
valid base64 (`"A"` filters to one data character, `binascii.Error`): the
record is skipped with a diagnostic naming the resolved domain `a.com`. -/
theorem C2_empty_and_decode_failures_amended_witness :
    preTry (Json.obj [("domain", Json.obj [("main", Json.str "a.com")]),
        ("certificate", Json.str "A"), ("key", Json.str "Qg==")])
      = Except.ok (Json.str "a.com", Json.str "A", Json.str "Qg==") ∧
    (pyTruthy (Json.str "A") && pyTruthy (Json.str "Qg==")) = true ∧
    tryBody ⟨"out", false, false⟩ (fun _ => "T") ⟨[], [], [], 438⟩
        (Json.str "a.com") (Json.str "A") (Json.str "Qg==")
      = Except.error PyErr.binasciiError ∧
    processRecord ⟨"out", false, false⟩ (fun _ => "T") ⟨[], [], [], 438⟩
        (Json.obj [("domain", Json.obj [("main", Json.str "a.com")]),
          ("certificate", Json.str "A"), ("key", Json.str "Qg==")])
      = Except.ok (⟨[], [], [], 438⟩, 0,
          [Diag.errorProcessing (Json.str "a.com") PyErr.binasciiError]) :=
  ⟨rfl, rfl, rfl,
    ((C2_empty_and_decode_failures_amended ⟨"out", false, false⟩ (fun _ => "T")
        ⟨[], [], [], 438⟩
        (Json.obj [("domain", Json.obj [("main", Json.str "a.com")]),
          ("certificate", Json.str "A"), ("key", Json.str "Qg==")])
        (Json.str "a.com") (Json.str "A") (Json.str "Qg==") rfl).2
      PyErr.binasciiError rfl rfl)⟩

theorem getMode_makedirs (fs : FS) (d q : String) : getMode (makedirs fs d) q = getMode fs q := by
  unfold getMode
  rw [lookupFile_makedirs]

theorem getMode_none_of_exists_false (fs : FS) (p : String) (h : existsFile fs p = false) :
    getMode fs p = none := by
  unfold existsFile at h
  unfold getMode
  cases hl : lookupFile fs p
  · rfl
  · rw [hl] at h; cases h

theorem archiveOne_defaultMode (ts : String) (fs : FS) (folder name : String) :
    (archiveOne ts fs folder name).1.defaultMode = fs.defaultMode := by
  simp only [archiveOne]
  split
  · rw [moveFile_defaultMode]
  · rfl

theorem archivePhase_defaultMode (ts : Nat → String) (fs : FS) (folder : String) :
    (archivePhase ts fs folder).1.defaultMode = fs.defaultMode := by
  simp only [archivePhase]
  rw [archiveOne_defaultMode, archiveOne_defaultMode, archiveOne_defaultMode,
    makedirs_defaultMode]

/-- Claim C4: for every record that is successfully extracted (count
contribution 1 — non-empty, well-formed base64 certificate and key, all
three writes and both permission settings reached), the content of
`combined.pem` in the resulting file system equals the content of
`certificate.pem` concatenated with the content of `private_key.pem`, with
no bytes inserted between or appended. -/
theorem C4_combined_is_concatenation (cfg : Config) (ts : Nat → String) (fs : FS)
    (item : Json) (fs' : FS) (ds : List Diag)
    (h : processRecord cfg ts fs item = Except.ok (fs', 1, ds)) :
    ∃ folder c k,
      getContent fs' (pyJoin folder "certificate.pem") = some c ∧
      getContent fs' (pyJoin folder "private_key.pem") = some k ∧
      getContent fs' (pyJoin folder "combined.pem") = some (c ++ k) := by
  rcases processRecord_ok_shape cfg ts fs item fs' 1 ds h with ⟨_, hn⟩ | ⟨od, sd, c, k, hf⟩
  · exact absurd hn one_ne_zero
  · rcases fsPhase_cases cfg ts fs od sd c k fs' 1 ds _ _ _ _ rfl rfl rfl rfl hf with
      ⟨_, _, hn, _, _⟩ | ⟨_, hfs, _⟩
    · exact absurd hn one_ne_zero
    · have hck : pyJoin (pyJoin cfg.output_dir sd) "certificate.pem"
          ≠ pyJoin (pyJoin cfg.output_dir sd) "private_key.pem" :=
        pyJoin_ne_pyJoin _ _ _ rfl rfl (by decide)
      have hcm : pyJoin (pyJoin cfg.output_dir sd) "certificate.pem"
          ≠ pyJoin (pyJoin cfg.output_dir sd) "combined.pem" :=
        pyJoin_ne_pyJoin _ _ _ rfl rfl (by decide)
      have hkm : pyJoin (pyJoin cfg.output_dir sd) "private_key.pem"
          ≠ pyJoin (pyJoin cfg.output_dir sd) "combined.pem" :=
        pyJoin_ne_pyJoin _ _ _ rfl rfl (by decide)
      obtain ⟨h1, h2, h3⟩ := writeOutputs_contents
        (if cfg.archive_old = true then
          (archivePhase ts (makedirs fs (pyJoin cfg.output_dir sd))
            (pyJoin cfg.output_dir sd)).1
         else makedirs fs (pyJoin cfg.output_dir sd))
        _ _ _ c k hck hcm hkm
      exact ⟨pyJoin cfg.output_dir sd, c, k,
        by rw [hfs]; exact h1, by rw [hfs]; exact h2, by rw [hfs]; exact h3⟩

/-- Witness for C4: a concrete successful extraction of the record
`{"domain": {"main": "a"}, "certificate": "QQ==", "key": "Qg=="}` (the
texts decode to `A` and `B`; `combined.pem` holds `AB`). -/
theorem C4_combined_is_concatenation_witness :
    processRecord ⟨"out", false, false⟩ (fun _ => "T") ⟨[], [], [], 438⟩
        (Json.obj [("domain", Json.obj [("main", Json.str "a")]),
          ("certificate", Json.str "QQ=="), ("key", Json.str "Qg==")])
      = Except.ok
          (⟨[("out/a/combined.pem", ⟨"AB", 384⟩), ("out/a/private_key.pem", ⟨"B", 384⟩),
            ("out/a/certificate.pem", ⟨"A", 438⟩)], ["out/a"], [], 438⟩, 1, []) ∧
    (∃ folder c k,
      getContent (⟨[("out/a/combined.pem", ⟨"AB", 384⟩),
          ("out/a/private_key.pem", ⟨"B", 384⟩),
          ("out/a/certificate.pem", ⟨"A", 438⟩)], ["out/a"], [], 438⟩ : FS)
          (pyJoin folder "certificate.pem") = some c ∧
      getContent (⟨[("out/a/combined.pem", ⟨"AB", 384⟩),
          ("out/a/private_key.pem", ⟨"B", 384⟩),
          ("out/a/certificate.pem", ⟨"A", 438⟩)], ["out/a"], [], 438⟩ : FS)
          (pyJoin folder "private_key.pem") = some k ∧
      getContent (⟨[("out/a/combined.pem", ⟨"AB", 384⟩),
          ("out/a/private_key.pem", ⟨"B", 384⟩),
          ("out/a/certificate.pem", ⟨"A", 438⟩)], ["out/a"], [], 438⟩ : FS)
          (pyJoin folder "combined.pem") = some (c ++ k)) :=
  ⟨rfl, C4_combined_is_concatenation ⟨"out", false, false⟩ (fun _ => "T") ⟨[], [], [], 438⟩
    (Json.obj [("domain", Json.obj [("main", Json.str "a")]),
      ("certificate", Json.str "QQ=="), ("key", Json.str "Qg==")]) _ [] rfl⟩

/-- Claim C9: for every record counted as successfully extracted,
`private_key.pem` and `combined.pem` end with owner-only read/write
permission (mode 0o600), while `certificate.pem` gets no permission
restriction: its final mode is either the default creation mode or the mode
the file already had before the run touched it. -/
theorem C9_key_permissions (cfg : Config) (ts : Nat → String) (fs : FS)
    (item : Json) (fs' : FS) (ds : List Diag)
    (h : processRecord cfg ts fs item = Except.ok (fs', 1, ds)) :
    ∃ folder,
      getMode fs' (pyJoin folder "private_key.pem") = some 0o600 ∧
      getMode fs' (pyJoin folder "combined.pem") = some 0o600 ∧
      (getMode fs' (pyJoin folder "certificate.pem") = some fs.defaultMode ∨
        getMode fs' (pyJoin folder "certificate.pem")
          = getMode fs (pyJoin folder "certificate.pem")) := by
  rcases processRecord_ok_shape cfg ts fs item fs' 1 ds h with ⟨_, hn⟩ | ⟨od, sd, c, k, hf⟩
  · exact absurd hn one_ne_zero
  · rcases fsPhase_cases cfg ts fs od sd c k fs' 1 ds _ _ _ _ rfl rfl rfl rfl hf with
      ⟨_, _, hn, _, _⟩ | ⟨_, hfs, _⟩
    · exact absurd hn one_ne_zero
    · have hck : pyJoin (pyJoin cfg.output_dir sd) "certificate.pem"
          ≠ pyJoin (pyJoin cfg.output_dir sd) "private_key.pem" :=
        pyJoin_ne_pyJoin _ _ _ rfl rfl (by decide)
      have hcm : pyJoin (pyJoin cfg.output_dir sd) "certificate.pem"
          ≠ pyJoin (pyJoin cfg.output_dir sd) "combined.pem" :=
        pyJoin_ne_pyJoin _ _ _ rfl rfl (by decide)
      have hkm : pyJoin (pyJoin cfg.output_dir sd) "private_key.pem"
          ≠ pyJoin (pyJoin cfg.output_dir sd) "combined.pem" :=
        pyJoin_ne_pyJoin _ _ _ rfl rfl (by decide)
      refine ⟨pyJoin cfg.output_dir sd, ?_⟩
      by_cases ha : cfg.archive_old = true
      · rw [if_pos ha] at hfs
        obtain ⟨m1, m2, m3⟩ := writeOutputs_modes
          ((archivePhase ts (makedirs fs (pyJoin cfg.output_dir sd))
            (pyJoin cfg.output_dir sd)).1) _ _ _ c k hck hcm hkm
        refine ⟨by rw [hfs]; exact m1, by rw [hfs]; exact m2, Or.inl ?_⟩
        rw [hfs, m3]
        rw [getMode_none_of_exists_false _ _ (existsFile_archivePhase_certFile ts _ _)]
        rw [archivePhase_defaultMode, makedirs_defaultMode]
      · rw [if_neg ha] at hfs
        obtain ⟨m1, m2, m3⟩ := writeOutputs_modes
          (makedirs fs (pyJoin cfg.output_dir sd)) _ _ _ c k hck hcm hkm
        refine ⟨by rw [hfs]; exact m1, by rw [hfs]; exact m2, ?_⟩
        rw [hfs, m3, getMode_makedirs, makedirs_defaultMode]
        cases hg : getMode fs (pyJoin (pyJoin cfg.output_dir sd) "certificate.pem")
        · exact Or.inl rfl
        · exact Or.inr rfl

/-- Witness for C9: the same concrete extraction shape as elsewhere but with
the domain `b` — the key and combined files end with mode 0o600 (= 384) and
the certificate keeps the default mode 438. -/
theorem C9_key_permissions_witness :
    processRecord ⟨"out", false, false⟩ (fun _ => "T") ⟨[], [], [], 438⟩
        (Json.obj [("domain", Json.obj [("main", Json.str "b")]),
          ("certificate", Json.str "QQ=="), ("key", Json.str "Qg==")])
      = Except.ok
          (⟨[("out/b/combined.pem", ⟨"AB", 384⟩), ("out/b/private_key.pem", ⟨"B", 384⟩),
            ("out/b/certificate.pem", ⟨"A", 438⟩)], ["out/b"], [], 438⟩, 1, []) ∧
    (∃ folder,
      getMode (⟨[("out/b/combined.pem", ⟨"AB", 384⟩),
          ("out/b/private_key.pem", ⟨"B", 384⟩),
          ("out/b/certificate.pem", ⟨"A", 438⟩)], ["out/b"], [], 438⟩ : FS)
          (pyJoin folder "private_key.pem") = some 0o600 ∧
      getMode (⟨[("out/b/combined.pem", ⟨"AB", 384⟩),
          ("out/b/private_key.pem", ⟨"B", 384⟩),
          ("out/b/certificate.pem", ⟨"A", 438⟩)], ["out/b"], [], 438⟩ : FS)
          (pyJoin folder "combined.pem") = some 0o600 ∧
      (getMode (⟨[("out/b/combined.pem", ⟨"AB", 384⟩),
          ("out/b/private_key.pem", ⟨"B", 384⟩),
          ("out/b/certificate.pem", ⟨"A", 438⟩)], ["out/b"], [], 438⟩ : FS)
          (pyJoin folder "certificate.pem")
          = some (⟨[], [], [], 438⟩ : FS).defaultMode ∨
        getMode (⟨[("out/b/combined.pem", ⟨"AB", 384⟩),
          ("out/b/private_key.pem", ⟨"B", 384⟩),
          ("out/b/certificate.pem", ⟨"A", 438⟩)], ["out/b"], [], 438⟩ : FS)
          (pyJoin folder "certificate.pem")
          = getMode (⟨[], [], [], 438⟩ : FS) (pyJoin folder "certificate.pem"))) :=
  ⟨rfl, C9_key_permissions ⟨"out", false, false⟩ (fun _ => "T") ⟨[], [], [], 438⟩
    (Json.obj [("domain", Json.obj [("main", Json.str "b")]),
      ("certificate", Json.str "QQ=="), ("key", Json.str "Qg==")]) _ [] rfl⟩

/-- Claim C5: the skip check `compare_certificates` returns true only if
both `certificate.pem` and `private_key.pem` exist under the domain folder
and their full contents equal the decoded certificate and key texts (first
conjunct); any read error during comparison yields false together with a
report (second conjunct); whenever the skip diagnostic is printed for a
record, that record's files are left entirely untouched — no archive move,
no rewrite, no permission change — and it is not counted (third conjunct);
and when the skip-existing option is enabled and the comparison succeeds,
the record is skipped exactly this way, with the diagnostic printed (fourth
conjunct). -/
theorem C5_skip_check (cfg : Config) (ts : Nat → String) (fs : FS) :
    (∀ fs0 cf kf c k, (compare_certificates fs0 cf kf c k).1 = true →
      existsFile fs0 cf = true ∧ existsFile fs0 kf = true ∧
      getContent fs0 cf = some c ∧ getContent fs0 kf = some k) ∧
    (∀ fs0 cf kf c k, existsFile fs0 cf = true → existsFile fs0 kf = true →
      (cf ∈ fs0.unreadable ∨ kf ∈ fs0.unreadable) →
      compare_certificates fs0 cf kf c k = (false, [Diag.compareError])) ∧
    (∀ item fs' n ds d0, processRecord cfg ts fs item = Except.ok (fs', n, ds) →
      Diag.skipping d0 ∈ ds → fs'.files = fs.files ∧ n = 0) ∧
    (∀ od sd c k, cfg.skip_existing = true →
      (compare_certificates (makedirs fs (pyJoin cfg.output_dir sd))
        (pyJoin (pyJoin cfg.output_dir sd) "certificate.pem")
        (pyJoin (pyJoin cfg.output_dir sd) "private_key.pem") c k).1 = true →
      fsPhase cfg ts fs od sd c k
        = (makedirs fs (pyJoin cfg.output_dir sd), 0,
            (compare_certificates (makedirs fs (pyJoin cfg.output_dir sd))
              (pyJoin (pyJoin cfg.output_dir sd) "certificate.pem")
              (pyJoin (pyJoin cfg.output_dir sd) "private_key.pem") c k).2
              ++ [Diag.skipping od])) := by
  refine ⟨?_, ?_, ?_, ?_⟩
  · intro fs0 cf kf c k h
    unfold compare_certificates at h
    by_cases he : (existsFile fs0 cf && existsFile fs0 kf) = true
    · rw [if_pos he] at h
      obtain ⟨he1, he2⟩ := Bool.and_eq_true_iff.mp he
      by_cases hu : cf ∈ fs0.unreadable ∨ kf ∈ fs0.unreadable
      · rw [if_pos hu] at h; simp at h
      · rw [if_neg hu] at h
        cases hc1 : getContent fs0 cf <;> cases hc2 : getContent fs0 kf <;>
          simp only [hc1, hc2] at h
        · simp at h
        · simp at h
        · simp at h
        · rename_i ec ek
          by_cases hcc : ec = c ∧ ek = k
          · exact ⟨he1, he2, congrArg some hcc.1, congrArg some hcc.2⟩
          · rw [if_neg hcc] at h; simp at h
    · rw [if_neg he] at h; simp at h
  · intro fs0 cf kf c k he1 he2 hu
    unfold compare_certificates
    rw [if_pos (by rw [he1, he2]; rfl), if_pos hu]
  · intro item fs' n ds d0 hrun hmem
    rcases processRecord_ok_shape cfg ts fs item fs' n ds hrun with ⟨rfl, hn⟩ | ⟨od, sd, c, k, hf⟩
    · exact ⟨rfl, hn⟩
    · rcases fsPhase_cases cfg ts fs od sd c k fs' n ds _ _ _ _ rfl rfl rfl rfl hf with
        ⟨_, _, hn, hfs, _⟩ | ⟨hn1, _, hds⟩
      · rw [hfs]; exact ⟨makedirs_files fs _, hn⟩
      · exfalso
        rw [hds] at hmem
        rcases List.mem_append.mp hmem with hm | hm
        · by_cases hs : cfg.skip_existing = true
          · rw [if_pos hs] at hm
            rcases compare_certificates_diags (makedirs fs (pyJoin cfg.output_dir sd))
                _ _ c k with hq | hq <;> rw [hq] at hm <;> simp at hm
          · rw [if_neg hs] at hm; simp at hm
        · by_cases ha : cfg.archive_old = true
          · rw [if_pos ha] at hm
            exact skipping_not_mem_archivePhase ts _ _ d0 hm
          · rw [if_neg ha] at hm; simp at hm
  · intro od sd c k hs hc
    simp only [fsPhase]
    rw [if_pos hs, if_pos hc]

/-- Witness for C5 (fourth conjunct): a file system already holding matching
`certificate.pem`/`private_key.pem` under `out/a`; with skip-existing
enabled the record is skipped, the state is returned unchanged and the
skip diagnostic is printed. -/
theorem C5_skip_check_witness :
    (⟨"out", false, true⟩ : Config).skip_existing = true ∧
    (compare_certificates
        (makedirs ⟨[("out/a/certificate.pem", ⟨"A", 438⟩),
          ("out/a/private_key.pem", ⟨"B", 384⟩)], ["out/a"], [], 438⟩ (pyJoin "out" "a"))
        (pyJoin (pyJoin "out" "a") "certificate.pem")
        (pyJoin (pyJoin "out" "a") "private_key.pem") "A" "B").1 = true ∧
    fsPhase ⟨"out", false, true⟩ (fun _ => "T")
        ⟨[("out/a/certificate.pem", ⟨"A", 438⟩),
          ("out/a/private_key.pem", ⟨"B", 384⟩)], ["out/a"], [], 438⟩ "a" "a" "A" "B"
      = (makedirs ⟨[("out/a/certificate.pem", ⟨"A", 438⟩),
            ("out/a/private_key.pem", ⟨"B", 384⟩)], ["out/a"], [], 438⟩ (pyJoin "out" "a"), 0,
          (compare_certificates
            (makedirs ⟨[("out/a/certificate.pem", ⟨"A", 438⟩),
              ("out/a/private_key.pem", ⟨"B", 384⟩)], ["out/a"], [], 438⟩ (pyJoin "out" "a"))
            (pyJoin (pyJoin "out" "a") "certificate.pem")
            (pyJoin (pyJoin "out" "a") "private_key.pem") "A" "B").2
            ++ [Diag.skipping "a"]) :=
  ⟨rfl, rfl,
    (C5_skip_check ⟨"out", false, true⟩ (fun _ => "T")
      ⟨[("out/a/certificate.pem", ⟨"A", 438⟩),
        ("out/a/private_key.pem", ⟨"B", 384⟩)], ["out/a"], [], 438⟩).2.2.2
      "a" "a" "A" "B" rfl rfl⟩
